import Mathlib

/-
Verification development for the smart-contract scan dashboard repository.
The repository ships the presentation client (src/frontend and the unnamed
source parts); the backend Scan Orchestration & Findings Aggregation Engine
described by spec.md is not part of the shipped sources, so its operations
are modelled from the spec where a claim needs them.  Every definition
carries a comment naming the source location (or the spec section) it
embeds.
-/

/-- Severity scale of the data model (spec.md §3, Finding record).  The
five values appear verbatim in the frontend as the `severities` array. -/
inductive Severity where
  | CRITICAL
  | HIGH
  | MEDIUM
  | LOW
  | INFO
deriving DecidableEq

/-- String name of a severity, matching the string literals used across the
frontend components. -/
def Severity.name : Severity → String
  | .CRITICAL => "CRITICAL"
  | .HIGH => "HIGH"
  | .MEDIUM => "MEDIUM"
  | .LOW => "LOW"
  | .INFO => "INFO"

/-- Embeds the constant `severities` of
src/frontend/src/components/FindingsTable.tsx line 17 (also repeated in
src/unnamed/part_001 line 16 and part_002 line 16). -/
def severities : List String := ["CRITICAL", "HIGH", "MEDIUM", "LOW", "INFO"]

/-- The five severity constructors listed in the fixed dashboard order. -/
def severityScale : List Severity :=
  [Severity.CRITICAL, Severity.HIGH, Severity.MEDIUM, Severity.LOW, Severity.INFO]

/-- Modelled from the spec: §3 declares the severity scale "a fixed total
order used for sorting and summary counts"; the rank of a severity string is
its position in the `severities` array (smaller rank = more severe). -/
def severityRank (s : String) : Nat := severities.indexOf s

/-- Finding record as typed in src/frontend/src/pages/App.tsx lines 64-74
and src/frontend/src/components/FindingsTable.tsx lines 4-14. -/
structure Finding where
  id : String
  tool : String
  title : String
  description : String
  severity : String
  category : Option String := none
  file_path : Option String := none
  line_number : Option String := none
  function : Option String := none
deriving DecidableEq

/-- Embeds the `filtered` memo of
src/frontend/src/components/FindingsTable.tsx lines 31-35:
`findings.filter(f => (!severity || f.severity === severity) && (!tool ||
f.tool === tool))` where `!severity` and `!tool` test for the empty string. -/
def filtered (severity tool : String) (findings : List Finding) : List Finding :=
  findings.filter (fun f =>
    (severity == "" || f.severity == severity) && (tool == "" || f.tool == tool))

/-- Embeds the `severitySummary` memo of
src/frontend/src/components/FindingsTable.tsx lines 24-29: a reduce that
increments the count stored under the finding's severity key; a key that was
never incremented reads as 0 (the `?? 0` at line 96). -/
def severitySummary (findings : List Finding) : String → Nat :=
  findings.foldl
    (fun acc f => fun k => if k == f.severity then acc k + 1 else acc k)
    (fun _ => 0)

/-- Embeds the severity badge row of
src/frontend/src/components/FindingsTable.tsx lines 86-99: the badges map
over `severities` in its fixed order, each showing `severitySummary[s] ?? 0`. -/
def severitySummaryBadges (findings : List Finding) : List (String × Nat) :=
  severities.map (fun s => (s, severitySummary findings s))

/-- Modelled from the spec: §3/§4.4 say the fixed severity order is used for
sorting findings; the backend sorter is not in the shipped sources, so it is
modelled as a sort by `severityRank`. -/
def sortFindingsBySeverity (findings : List Finding) : List Finding :=
  findings.mergeSort
    (fun a b => decide (severityRank a.severity ≤ severityRank b.severity))

/-- Project record as typed in src/frontend/src/pages/App.tsx line 62. -/
structure Project where
  id : String
  name : String
  path : String
deriving DecidableEq

/-- Embeds the `setScanForm` updater inside `loadProjects`,
src/frontend/src/pages/App.tsx lines 128-140: after a successful projects
load, an empty list clears the selection; a selection that is empty or no
longer present in the loaded list is replaced by the first loaded project's
id; a still-valid selection is kept. -/
def reconcileScanFormProjectId (loaded : List Project) (prev : String) : String :=
  match loaded with
  | [] => ""
  | first :: _ =>
    if prev == "" || !(loaded.any (fun p => p.id == prev)) then first.id else prev

/-- Embeds `safeLoadJson` of src/frontend/src/pages/App.tsx lines 93-102.
The stored value is `Option String` (localStorage may hold nothing); the JS
falsiness test `!value` also catches the empty string.  `JSON.parse` is a
platform primitive, modelled as an oracle argument `jsonParse` returning
`none` exactly when the original would throw; objects are modelled as finite
partial maps from field names, and the spread `{...fallback, ...parsed}` is
`spreadMerge`. -/
def spreadMerge {α : Type} (fallback parsed : String → Option α) : String → Option α :=
  fun k =>
    match parsed k with
    | some v => some v
    | none => fallback k

/-- Embeds `safeLoadJson` of src/frontend/src/pages/App.tsx lines 93-102
(see `spreadMerge` for the object model). -/
def safeLoadJson {α : Type} (jsonParse : String → Option (String → Option α))
    (value : Option String) (fallback : String → Option α) : String → Option α :=
  match value with
  | none => fallback
  | some s =>
    if s == "" then fallback
    else
      match jsonParse s with
      | none => fallback
      | some parsed => spreadMerge fallback parsed

/-- Embeds the polling effect of src/frontend/src/pages/App.tsx lines
288-295: the 6000 ms interval is installed if and only if `selectedScanId`
is non-empty; the effect body never consults the scan detail status, which
is therefore an unused argument of the decision. -/
def pollingActive (selectedScanId : String) (detailStatus : String) : Bool :=
  selectedScanId != ""

/-- Poll interval of the effect at src/frontend/src/pages/App.tsx line 293. -/
def pollIntervalMs : Nat := 6000

/-- Terminal scan statuses per spec.md §3 (Scan status is terminal exactly
in SUCCESS or FAILED). -/
def isTerminalStatus (s : String) : Bool := s == "SUCCESS" || s == "FAILED"

/-- Modelled from the spec: §3/§4.2 ToolRun status scale; the ToolRun state
machine of the Retry Supervisor is not in the shipped sources. -/
inductive ToolRunStatus where
  | PENDING
  | RUNNING
  | SUCCESS
  | FAILED
deriving DecidableEq

/-- Modelled from the spec: §3 Scan status scale (QUEUED, RUNNING, SUCCESS,
FAILED); the Scan Scheduler is not in the shipped sources. -/
inductive ScanStatus where
  | QUEUED
  | RUNNING
  | SUCCESS
  | FAILED
deriving DecidableEq

/-- Modelled from the spec: §3/§4.2 — a ToolRun is settled (terminal) once a
success is recorded or its attempts are exhausted, i.e. in SUCCESS or
FAILED. -/
def ToolRunStatus.settled : ToolRunStatus → Bool
  | .SUCCESS => true
  | .FAILED => true
  | _ => false

/-- Modelled from the spec: §3 invariant and §4.3 finalization — the
Scheduler derives the scan status from its ToolRun statuses: RUNNING while
any ToolRun is unsettled; once all have settled, SUCCESS when every ToolRun
is SUCCESS and FAILED otherwise (some ToolRun exhausted its retries). -/
def deriveScanStatus (runs : List ToolRunStatus) : ScanStatus :=
  if runs.all ToolRunStatus.settled then
    if runs.all (fun r => r == ToolRunStatus.SUCCESS) then ScanStatus.SUCCESS
    else ScanStatus.FAILED
  else ScanStatus.RUNNING

/-- Modelled from the spec: §3 backend Finding record (the frontend only
types its JSON projection); severity is a value of the fixed scale. -/
structure CoreFinding where
  id : Nat
  scan_id : Nat
  tool : String
  title : String
  description : String
  severity : Severity
deriving DecidableEq

/-- Modelled from the spec: §4.6 fixed severity-to-SARIF-level table,
CRITICAL/HIGH to error, MEDIUM to warning, LOW/INFO to note. -/
def severityToSarifLevel : Severity → String
  | .CRITICAL => "error"
  | .HIGH => "error"
  | .MEDIUM => "warning"
  | .LOW => "note"
  | .INFO => "note"

/-- Modelled from the spec: §4.6 — one SARIF result per Finding, carrying
the level assigned by the fixed table. -/
structure SarifResult where
  ruleId : String
  message : String
  level : String
deriving DecidableEq

/-- Modelled from the spec: §4.6 Report Exporter SARIF rendering — each
Finding maps to exactly one SARIF result. -/
def exportSarifResults (findings : List CoreFinding) : List SarifResult :=
  findings.map (fun f =>
    { ruleId := f.title, message := f.description,
      level := severityToSarifLevel f.severity })

/-- Modelled from the spec: §4.4 cached severity-count summary of the
Findings Aggregator, one counter per value of the fixed scale. -/
structure SeveritySummaryCounts where
  critical : Nat
  high : Nat
  medium : Nat
  low : Nat
  info : Nat
deriving DecidableEq

/-- Modelled from the spec: §4.4 incremental summary maintenance — appending
one finding bumps the counter of its severity. -/
def SeveritySummaryCounts.bump (c : SeveritySummaryCounts) : Severity → SeveritySummaryCounts
  | .CRITICAL => { c with critical := c.critical + 1 }
  | .HIGH => { c with high := c.high + 1 }
  | .MEDIUM => { c with medium := c.medium + 1 }
  | .LOW => { c with low := c.low + 1 }
  | .INFO => { c with info := c.info + 1 }

/-- Modelled from the spec: §4.4 — the summary recomputed from scratch by
recounting the whole finding set. -/
def recountSummary (findings : List CoreFinding) : SeveritySummaryCounts :=
  { critical := findings.countP (fun f => f.severity == Severity.CRITICAL),
    high := findings.countP (fun f => f.severity == Severity.HIGH),
    medium := findings.countP (fun f => f.severity == Severity.MEDIUM),
    low := findings.countP (fun f => f.severity == Severity.LOW),
    info := findings.countP (fun f => f.severity == Severity.INFO) }

/-- Modelled from the spec: §4.4 Findings Aggregator state — the append-only
finding set of a scan together with its cached severity-count summary. -/
structure AggregatorState where
  findings : List CoreFinding
  summary : SeveritySummaryCounts
deriving DecidableEq

/-- Empty aggregator state: no findings, all counters zero. -/
def AggregatorState.empty : AggregatorState :=
  { findings := [], summary := { critical := 0, high := 0, medium := 0, low := 0, info := 0 } }

/-- Modelled from the spec: §4.4 — ingesting one finding appends it to the
scan's finding set (append-only) and incrementally updates the cached
summary. -/
def appendFinding (st : AggregatorState) (f : CoreFinding) : AggregatorState :=
  { findings := st.findings ++ [f], summary := st.summary.bump f.severity }

/-- Modelled from the spec: §3 Scan record held by the backend store. -/
structure ScanRec where
  id : Nat
  project_id : String
  target : String
  tools : List String
  status : ScanStatus
deriving DecidableEq

/-- Modelled from the spec: §3 ToolRun record held by the backend store,
identified by its (scan_id, tool) pair. -/
structure ToolRunRec where
  scan_id : Nat
  tool : String
  status : ToolRunStatus
  attempts : Nat
deriving DecidableEq

/-- Modelled from the spec: the backing store of the engine (projects,
scans, tool runs) with a fresh-id counter; the persistence layer is not in
the shipped sources. -/
structure Store where
  projects : List Project
  scans : List ScanRec
  toolRuns : List ToolRunRec
  nextId : Nat
deriving DecidableEq

/-- Modelled from the spec: §7 error taxonomy entries relevant to scan
admission. -/
inductive ApiError where
  | ValidationError
  | NotFoundError
deriving DecidableEq

/-- Scan request body as typed in src/frontend/src/pages/App.tsx (scanForm)
and spec.md §4.3. -/
structure ScanRequest where
  project_id : String
  target : String
  tools : List String
deriving DecidableEq

/-- Modelled from the spec: §4.3 scan admission — validate a non-empty tool
set and a resolvable project before any state is created; on success create
the Scan and its full ToolRun set atomically, one PENDING ToolRun per
requested tool. -/
def createScan (st : Store) (req : ScanRequest) : Store × Except ApiError Nat :=
  if req.tools.isEmpty then (st, Except.error ApiError.ValidationError)
  else if !(st.projects.any (fun p => p.id == req.project_id)) then
    (st, Except.error ApiError.NotFoundError)
  else
    let sid := st.nextId
    let scan : ScanRec :=
      { id := sid, project_id := req.project_id, target := req.target,
        tools := req.tools, status := ScanStatus.QUEUED }
    let runs := req.tools.map (fun t =>
      ({ scan_id := sid, tool := t, status := ToolRunStatus.PENDING, attempts := 0 } : ToolRunRec))
    let st' : Store :=
      { projects := st.projects
        scans := st.scans ++ [scan]
        toolRuns := st.toolRuns ++ runs
        nextId := st.nextId + 1 }
    (st', Except.ok sid)

/-- Modelled from the spec: §6 polling contract — the scan detail endpoint
is a plain read of the current aggregate: it returns the store unchanged
together with the looked-up scan. -/
def readScanDetail (st : Store) (id : Nat) : Store × Option ScanRec :=
  (st, st.scans.find? (fun s => s.id == id))

/-- Modelled from the spec: §3/§4.5 — recording a CoverageSignal keeps the
maximum of the recorded value and the incoming covered_edges counter, so an
out-of-order arrival can never decrease the recorded maximum. -/
def applyCoverageSignal (recorded : Nat) (covered_edges : Nat) : Nat :=
  max recorded covered_edges

/-- Modelled from the spec: the recorded covered_edges maximum of a run
after a sequence of appends, starting from 0. -/
def recordedMax (signals : List Nat) : Nat :=
  signals.foldl applyCoverageSignal 0

/-- Modelled from the spec: §3 Campaign status scale (PENDING, RUNNING,
PAUSED, STOPPED, COMPLETED); the Campaign Monitor is not in the shipped
sources. -/
inductive CampaignStatus where
  | PENDING
  | RUNNING
  | PAUSED
  | STOPPED
  | COMPLETED
deriving DecidableEq

/-- Modelled from the spec: §3 Campaign record held by the Campaign Monitor
(seeds, signals and crashes are owned collections not needed for the read
contract). -/
structure CampaignRec where
  id : Nat
  name : String
  target : String
  status : CampaignStatus
deriving DecidableEq

/-- Modelled from the spec: §5/§6 — campaigns are fully independent of the
scan store, and the campaign detail endpoint (GET /campaigns/:id) is a
plain read of the campaign registry: it returns the registry unchanged
together with the looked-up campaign. -/
def readCampaignDetail (campaigns : List CampaignRec) (id : Nat) :
    List CampaignRec × Option CampaignRec :=
  (campaigns, campaigns.find? (fun c => c.id == id))

/-- A settled ToolRun that is not SUCCESS can only be FAILED (it exhausted
its retries without success). -/
lemma settled_not_success (r : ToolRunStatus) (h : r.settled = true)
    (h2 : r ≠ ToolRunStatus.SUCCESS) : r = ToolRunStatus.FAILED := by
  cases r <;> simp_all [ToolRunStatus.settled]

/-- C1: once all of a scan's ToolRuns have settled, the derived scan status
is SUCCESS iff every ToolRun reached SUCCESS, FAILED iff at least one
ToolRun exhausted its retries without success, and it is never left in
RUNNING. -/
theorem scan_status_after_settlement (runs : List ToolRunStatus)
    (hsettled : ∀ r ∈ runs, r.settled = true) :
    (deriveScanStatus runs = ScanStatus.SUCCESS ↔ ∀ r ∈ runs, r = ToolRunStatus.SUCCESS) ∧
    (deriveScanStatus runs = ScanStatus.FAILED ↔ ∃ r ∈ runs, r = ToolRunStatus.FAILED) ∧
    deriveScanStatus runs ≠ ScanStatus.RUNNING := by
  have hall : runs.all ToolRunStatus.settled = true := List.all_eq_true.mpr hsettled
  by_cases hs : runs.all (fun r => r == ToolRunStatus.SUCCESS) = true
  · have hstat : deriveScanStatus runs = ScanStatus.SUCCESS := by
      simp [deriveScanStatus, hall, hs]
    have hallsucc : ∀ r ∈ runs, r = ToolRunStatus.SUCCESS := by
      intro r hr
      have hb := List.all_eq_true.mp hs r hr
      exact eq_of_beq hb
    refine ⟨?_, ?_, ?_⟩
    · exact ⟨fun _ => hallsucc, fun _ => hstat⟩
    · constructor
      · intro h
        rw [hstat] at h
        exact absurd h (by simp)
      · rintro ⟨r, hr, rfl⟩
        exact absurd (hallsucc _ hr) (by simp)
    · rw [hstat]
      simp
  · have hstat : deriveScanStatus runs = ScanStatus.FAILED := by
      simp [deriveScanStatus, hall, hs]
    have hex : ∃ r ∈ runs, r = ToolRunStatus.FAILED := by
      have hnall : ¬ ∀ r ∈ runs, (r == ToolRunStatus.SUCCESS) = true :=
        fun h => hs (List.all_eq_true.mpr h)
      push_neg at hnall
      obtain ⟨r, hr, hne⟩ := hnall
      have hrs : r ≠ ToolRunStatus.SUCCESS := by
        intro e
        subst e
        simp at hne
      exact ⟨r, hr, settled_not_success r (hsettled r hr) hrs⟩
    refine ⟨?_, ?_, ?_⟩
    · constructor
      · intro h
        rw [hstat] at h
        exact absurd h (by simp)
      · intro h
        obtain ⟨r, hr, rfl⟩ := hex
        exact absurd (h _ hr) (by simp)
    · exact ⟨fun _ => hex, fun _ => hstat⟩
    · rw [hstat]
      simp

/-- Witness for C1: a settled mix across N=3 tools (SUCCESS, FAILED,
SUCCESS) derives scan status FAILED. -/
theorem scan_status_after_settlement_witness :
    deriveScanStatus
        [ToolRunStatus.SUCCESS, ToolRunStatus.FAILED, ToolRunStatus.SUCCESS]
      = ScanStatus.FAILED :=
  (scan_status_after_settlement
      [ToolRunStatus.SUCCESS, ToolRunStatus.FAILED, ToolRunStatus.SUCCESS]
      (by decide)).2.1.mpr ⟨ToolRunStatus.FAILED, by decide, rfl⟩

/-- Concrete CRITICAL finding used by the C2 export scenario. -/
def sampleCriticalFinding : CoreFinding :=
  { id := 1, scan_id := 1, tool := "slither", title := "Reentrancy in withdraw",
    description := "external call before state update", severity := Severity.CRITICAL }

/-- Concrete LOW finding used by the C2 export scenario. -/
def sampleLowFinding : CoreFinding :=
  { id := 2, scan_id := 1, tool := "slither", title := "Shadowed local variable",
    description := "local shadows state variable", severity := Severity.LOW }

/-- C2: every exported scan yields exactly one SARIF result per Finding,
levelled by the fixed table CRITICAL/HIGH to error, MEDIUM to warning,
LOW/INFO to note; a scan with one CRITICAL and one LOW finding exports
exactly one result at level error and one at level note. -/
theorem sarif_export_fixed_table (findings : List CoreFinding) :
    (exportSarifResults findings).length = findings.length ∧
    (exportSarifResults findings).map SarifResult.level
      = findings.map (fun f => severityToSarifLevel f.severity) ∧
    severityToSarifLevel Severity.CRITICAL = "error" ∧
    severityToSarifLevel Severity.HIGH = "error" ∧
    severityToSarifLevel Severity.MEDIUM = "warning" ∧
    severityToSarifLevel Severity.LOW = "note" ∧
    severityToSarifLevel Severity.INFO = "note" ∧
    (exportSarifResults [sampleCriticalFinding, sampleLowFinding]).countP
        (fun r => r.level == "error") = 1 ∧
    (exportSarifResults [sampleCriticalFinding, sampleLowFinding]).countP
        (fun r => r.level == "note") = 1 ∧
    (exportSarifResults [sampleCriticalFinding, sampleLowFinding]).length = 2 := by
  refine ⟨?_, ?_, rfl, rfl, rfl, rfl, rfl, by decide, by decide, by decide⟩
  · simp [exportSarifResults]
  · simp [exportSarifResults]

/-- Recounting after appending one finding bumps exactly the counter of its
severity. -/
lemma recountSummary_append_single (l : List CoreFinding) (f : CoreFinding) :
    recountSummary (l ++ [f]) = (recountSummary l).bump f.severity := by
  cases h : f.severity <;>
    simp [recountSummary, SeveritySummaryCounts.bump, List.countP_append,
      List.countP_cons, List.countP_nil, h]

/-- The cached summary stays equal to a from-scratch recount of the current
finding set across any sequence of appends. -/
lemma aggregator_invariant (fs : List CoreFinding) (st : AggregatorState)
    (h : st.summary = recountSummary st.findings) :
    (List.foldl appendFinding st fs).summary
      = recountSummary (List.foldl appendFinding st fs).findings := by
  induction fs generalizing st with
  | nil => exact h
  | cons f fs ih =>
    rw [List.foldl_cons]
    exact ih (appendFinding st f) (by simp [appendFinding, recountSummary_append_single, h])

/-- Appending findings one at a time accumulates exactly the appended list. -/
lemma aggregator_findings_eq (fs : List CoreFinding) (st : AggregatorState) :
    (List.foldl appendFinding st fs).findings = st.findings ++ fs := by
  induction fs generalizing st with
  | nil => simp
  | cons f fs ih =>
    rw [List.foldl_cons, ih]
    simp [appendFinding]

/-- C3: appending k findings one at a time to the empty aggregator leaves
exactly those findings, and the incrementally maintained severity-count
summary read at that point equals the summary recounted from scratch over
all k findings, so every read is consistent with the current finding set. -/
theorem aggregator_summary_consistent (fs : List CoreFinding) :
    (List.foldl appendFinding AggregatorState.empty fs).findings = fs ∧
    (List.foldl appendFinding AggregatorState.empty fs).summary = recountSummary fs := by
  have hfind : (List.foldl appendFinding AggregatorState.empty fs).findings = fs := by
    simpa [AggregatorState.empty] using aggregator_findings_eq fs AggregatorState.empty
  refine ⟨hfind, ?_⟩
  have := aggregator_invariant fs AggregatorState.empty
      (by simp [AggregatorState.empty, recountSummary, List.countP_nil])
  rw [this, hfind]

/-- C4: a scan request with an empty tool list is rejected with a
ValidationError and no state is created: the store is unchanged, so no Scan
and no ToolRun record exists after the rejection. -/
theorem empty_tools_rejected (st : Store) (req : ScanRequest) (h : req.tools = []) :
    (createScan st req).1 = st ∧
    (createScan st req).2 = Except.error ApiError.ValidationError ∧
    (createScan st req).1.scans = st.scans ∧
    (createScan st req).1.toolRuns = st.toolRuns := by
  have hempty : req.tools.isEmpty = true := by simp [h]
  simp [createScan, hempty]

/-- Witness for C4: an empty-tools request against a concrete store is
rejected with ValidationError and leaves the store untouched. -/
theorem empty_tools_rejected_witness :
    (createScan { projects := [], scans := [], toolRuns := [], nextId := 0 }
        { project_id := "p1", target := "Token.sol", tools := [] }).1
      = { projects := [], scans := [], toolRuns := [], nextId := 0 } ∧
    (createScan { projects := [], scans := [], toolRuns := [], nextId := 0 }
        { project_id := "p1", target := "Token.sol", tools := [] }).2
      = Except.error ApiError.ValidationError :=
  ⟨(empty_tools_rejected _ _ rfl).1, (empty_tools_rejected _ _ rfl).2.1⟩

/-- Counterexample for C5: with scan "scan-1" selected and its detail
showing the terminal status SUCCESS, the polling effect of App.tsx lines
288-295 is still active — polling does not stop when a terminal status is
observed, refuting the claim at this concrete input. -/
theorem polling_continues_after_terminal_status :
    isTerminalStatus "SUCCESS" = true ∧ pollingActive "scan-1" "SUCCESS" = true ∧
    ¬ (∀ selectedScanId status : String,
        isTerminalStatus status = true → pollingActive selectedScanId status = false) := by
  refine ⟨by decide, by decide, ?_⟩
  intro h
  have hfalse := h "scan-1" "SUCCESS" (by decide)
  simp [pollingActive] at hfalse

/-- C5 (amended): scan detail reads and campaign detail reads are both
idempotent (they leave the underlying state unchanged and repeated calls
with no intervening writes return the same result), and the client polls on
the fixed 6000 ms interval while a scan is selected, regardless of the
observed status; polling stops exactly when the selection is cleared, not
when a terminal status is observed. -/
theorem detail_reads_idempotent_and_polling_selection_bound :
    (∀ (st : Store) (id : Nat),
        (readScanDetail st id).1 = st ∧
        readScanDetail (readScanDetail st id).1 id = readScanDetail st id) ∧
    (∀ (campaigns : List CampaignRec) (id : Nat),
        (readCampaignDetail campaigns id).1 = campaigns ∧
        readCampaignDetail (readCampaignDetail campaigns id).1 id
          = readCampaignDetail campaigns id) ∧
    pollIntervalMs = 6000 ∧
    (∀ selectedScanId status : String, selectedScanId ≠ "" →
        pollingActive selectedScanId status = true) ∧
    (∀ status : String, pollingActive "" status = false) := by
  refine ⟨fun st id => ⟨rfl, rfl⟩, fun campaigns id => ⟨rfl, rfl⟩, rfl, ?_, fun status => rfl⟩
  intro sid status h
  simp [pollingActive, bne_iff_ne, h]

/-- Witness for C5 (amended): polling stays active for a selected scan even
at a terminal status, and is inactive with no selection. -/
theorem detail_reads_idempotent_and_polling_selection_bound_witness :
    pollingActive "scan-9" "FAILED" = true ∧ pollingActive "" "RUNNING" = false :=
  ⟨detail_reads_idempotent_and_polling_selection_bound.2.2.2.1 "scan-9" "FAILED" (by decide),
   detail_reads_idempotent_and_polling_selection_bound.2.2.2.2 "RUNNING"⟩

/-- C7: the recorded covered_edges maximum never decreases under a further
append, whatever the arrival order so far; in particular appending the
values 10, 7, 15 in that order records 15, and the intermediate maximum
after 10, 7 is still 10 (it never drops to 7). -/
theorem coverage_recorded_max_monotone :
    (∀ (vs : List Nat) (v : Nat), recordedMax vs ≤ recordedMax (vs ++ [v])) ∧
    recordedMax [10, 7, 15] = 15 ∧
    recordedMax [10] = 10 ∧
    recordedMax [10, 7] = 10 := by
  refine ⟨?_, by decide, by decide, by decide⟩
  intro vs v
  rw [recordedMax, recordedMax, List.foldl_append]
  simp only [List.foldl_cons, List.foldl_nil, applyCoverageSignal]
  exact Nat.le_max_left _ _

/-- Reading one key of the severity-count reduce equals the starting value
of that key plus the number of findings carrying it. -/
lemma severitySummary_foldl (fs : List Finding) (acc : String → Nat) (k : String) :
    (fs.foldl (fun acc f => fun k2 => if k2 == f.severity then acc k2 + 1 else acc k2) acc) k
      = acc k + fs.countP (fun f => f.severity == k) := by
  induction fs generalizing acc with
  | nil => simp
  | cons f fs ih =>
    rw [List.foldl_cons, ih, List.countP_cons]
    by_cases h : k = f.severity
    · subst h
      simp
      omega
    · have h1 : (k == f.severity) = false := by simp [h]
      have h2 : (f.severity == k) = false := by simp [Ne.symm h]
      simp [h1, h2]

/-- The frontend severity-count reduce agrees with a direct count of the
findings carrying each severity. -/
lemma severitySummary_eq_countP (fs : List Finding) (k : String) :
    severitySummary fs k = fs.countP (fun f => f.severity == k) := by
  simpa only [Nat.zero_add] using severitySummary_foldl fs (fun _ => 0) k

/-- The order modelled for sorting findings is transitive. -/
lemma severityLe_trans (a b c : Finding) :
    decide (severityRank a.severity ≤ severityRank b.severity) = true →
    decide (severityRank b.severity ≤ severityRank c.severity) = true →
    decide (severityRank a.severity ≤ severityRank c.severity) = true := by
  simp only [decide_eq_true_eq]
  omega

/-- The order modelled for sorting findings is total. -/
lemma severityLe_total (a b : Finding) :
    (decide (severityRank a.severity ≤ severityRank b.severity)
      || decide (severityRank b.severity ≤ severityRank a.severity)) = true := by
  simp only [Bool.or_eq_true, decide_eq_true_eq]
  omega

/-- C6: the severity scale is exactly the five values CRITICAL, HIGH,
MEDIUM, LOW, INFO in that fixed order (the frontend `severities` array names
them in scale order, without duplicates, with strictly increasing rank), the
modelled finding sort orders by exactly that rank and permutes its input,
and the summary badges enumerate the counts in exactly that order. -/
theorem severity_scale_order_and_uses :
    severities = severityScale.map Severity.name ∧
    severityScale
      = [Severity.CRITICAL, Severity.HIGH, Severity.MEDIUM, Severity.LOW, Severity.INFO] ∧
    (∀ s : Severity, s ∈ severityScale) ∧
    severities.Nodup ∧
    List.Pairwise (fun a b => severityRank a < severityRank b) severities ∧
    (∀ fs : List Finding, List.Perm (sortFindingsBySeverity fs) fs) ∧
    (∀ fs : List Finding,
        List.Pairwise (fun a b => severityRank a.severity ≤ severityRank b.severity)
          (sortFindingsBySeverity fs)) ∧
    (∀ fs : List Finding,
        severitySummaryBadges fs
          = severities.map (fun s => (s, fs.countP (fun f => f.severity == s)))) := by
  refine ⟨by decide, rfl, ?_, by decide, by decide, ?_, ?_, ?_⟩
  · intro s
    cases s <;> simp [severityScale]
  · intro fs
    exact List.mergeSort_perm fs _
  · intro fs
    have hs := @List.sorted_mergeSort Finding
      (fun a b : Finding => decide (severityRank a.severity ≤ severityRank b.severity))
      severityLe_trans severityLe_total fs
    exact hs.imp (fun h => by simpa using h)
  · intro fs
    simp [severitySummaryBadges, severitySummary_eq_countP]

/-- C8: the filtered rows of the findings table are exactly the findings
whose severity equals the selected severity when one is selected and whose
tool equals the entered tool when non-empty; the filtered list is always an
in-order sublist of the input, and with both filters empty it equals the
input list. -/
theorem findings_filter_spec :
    (∀ (sev tool : String) (fs : List Finding) (f : Finding),
        f ∈ filtered sev tool fs ↔
          f ∈ fs ∧ (sev ≠ "" → f.severity = sev) ∧ (tool ≠ "" → f.tool = tool)) ∧
    (∀ (sev tool : String) (fs : List Finding), List.Sublist (filtered sev tool fs) fs) ∧
    (∀ fs : List Finding, filtered "" "" fs = fs) := by
  refine ⟨?_, ?_, ?_⟩
  · intro sev tool fs f
    simp only [filtered, List.mem_filter, Bool.and_eq_true, Bool.or_eq_true, beq_iff_eq]
    constructor
    · rintro ⟨hmem, hsev, htool⟩
      refine ⟨hmem, ?_, ?_⟩
      · intro hne
        cases hsev with
        | inl h => exact absurd h hne
        | inr h => exact h
      · intro hne
        cases htool with
        | inl h => exact absurd h hne
        | inr h => exact h
    · rintro ⟨hmem, hsev, htool⟩
      refine ⟨hmem, ?_, ?_⟩
      · by_cases h : sev = ""
        · exact Or.inl h
        · exact Or.inr (hsev h)
      · by_cases h : tool = ""
        · exact Or.inl h
        · exact Or.inr (htool h)
  · intro sev tool fs
    exact List.filter_sublist fs
  · intro fs
    simp [filtered]

/-- Witness for C8: a HIGH finding passes the severity filter HIGH with an
empty tool filter. -/
theorem findings_filter_spec_witness :
    ({ id := "f1", tool := "slither", title := "t", description := "d",
       severity := "HIGH" } : Finding) ∈
      filtered "HIGH" ""
        [{ id := "f1", tool := "slither", title := "t", description := "d",
           severity := "HIGH" }] :=
  (findings_filter_spec.1 "HIGH" ""
      [{ id := "f1", tool := "slither", title := "t", description := "d",
         severity := "HIGH" }]
      { id := "f1", tool := "slither", title := "t", description := "d",
        severity := "HIGH" }).mpr
    ⟨by simp, fun _ => rfl, fun h => absurd rfl h⟩

/-- C9: safeLoadJson is total over its input space: with a null stored
value, or a stored string the parse oracle rejects, it returns the fallback;
with a parsable non-empty stored string it returns the fallback spread-merged
with the parsed object; in every case each field present in the fallback
shape is present in the result. -/
theorem safeLoadJson_spec (α : Type) (jsonParse : String → Option (String → Option α))
    (value : Option String) (fallback : String → Option α) :
    (value = none → safeLoadJson jsonParse value fallback = fallback) ∧
    (∀ s, value = some s → jsonParse s = none →
        safeLoadJson jsonParse value fallback = fallback) ∧
    (∀ s parsed, value = some s → s ≠ "" → jsonParse s = some parsed →
        safeLoadJson jsonParse value fallback = spreadMerge fallback parsed) ∧
    (∀ k, (fallback k).isSome = true →
        (safeLoadJson jsonParse value fallback k).isSome = true) := by
  refine ⟨?_, ?_, ?_, ?_⟩
  · rintro rfl
    rfl
  · rintro s rfl hp
    simp [safeLoadJson, hp]
  · rintro s parsed rfl hne hp
    have hs : (s == "") = false := by simp [hne]
    simp [safeLoadJson, hs, hp]
  · intro k hk
    cases value with
    | none => simpa [safeLoadJson] using hk
    | some s =>
      by_cases hs : (s == "") = true
      · simpa [safeLoadJson, hs] using hk
      · cases hp : jsonParse s with
        | none =>
          simp only [safeLoadJson, Bool.not_eq_true] at hs ⊢
          simpa [hs, hp] using hk
        | some parsed =>
          simp only [safeLoadJson, Bool.not_eq_true] at hs ⊢
          cases hpk : parsed k with
          | none => simpa [hs, hp, spreadMerge, hpk] using hk
          | some v => simp [hs, hp, spreadMerge, hpk]

/-- Witness for C9: a null stored value yields the fallback; a rejected
stored string yields the fallback; the fallback's populated field is present
in the result. -/
theorem safeLoadJson_spec_witness :
    safeLoadJson (fun _ => none) (none : Option String) (fun _ => (some 7 : Option Nat))
      = (fun _ => some 7) ∧
    safeLoadJson (fun _ => (none : Option (String → Option Nat))) (some "bad json")
        (fun _ => some 7)
      = (fun _ => some 7) ∧
    (safeLoadJson (fun _ => none) (some "bad json") (fun _ => (some 7 : Option Nat))
        "target").isSome = true :=
  ⟨(safeLoadJson_spec Nat (fun _ => none) none (fun _ => some 7)).1 rfl,
   (safeLoadJson_spec Nat (fun _ => none) (some "bad json") (fun _ => some 7)).2.1
     "bad json" rfl rfl,
   (safeLoadJson_spec Nat (fun _ => none) (some "bad json") (fun _ => some 7)).2.2.2
     "target" rfl⟩

/-- C10: after a successful projects load (given loaded projects have
non-empty ids), the reconciled scan-form selection is empty exactly when the
loaded list is empty; on a non-empty list it refers to a loaded project; a
still-present non-empty selection is kept unchanged; a missing or empty
selection is replaced by the first loaded project's id. -/
theorem scan_form_project_reconciliation (loaded : List Project) (prev : String)
    (hids : ∀ p ∈ loaded, p.id ≠ "") :
    (reconcileScanFormProjectId loaded prev = "" ↔ loaded = []) ∧
    (loaded ≠ [] → reconcileScanFormProjectId loaded prev ∈ loaded.map Project.id) ∧
    (prev ≠ "" → prev ∈ loaded.map Project.id →
        reconcileScanFormProjectId loaded prev = prev) ∧
    (∀ first rest, loaded = first :: rest →
        prev = "" ∨ prev ∉ loaded.map Project.id →
        reconcileScanFormProjectId loaded prev = first.id) := by
  cases loaded with
  | nil =>
    refine ⟨by simp [reconcileScanFormProjectId], by simp, by simp, ?_⟩
    intro first rest h
    exact absurd h (by simp)
  | cons first rest =>
    by_cases hcond :
        (prev == "" || !((first :: rest).any (fun p => p.id == prev))) = true
    · have hres : reconcileScanFormProjectId (first :: rest) prev = first.id := by
        simp only [reconcileScanFormProjectId, hcond, if_true]
      refine ⟨?_, ?_, ?_, ?_⟩
      · have h1 : first.id ≠ "" := hids first (by simp)
        simp [hres, h1]
      · intro _
        rw [hres]
        exact List.mem_map_of_mem Project.id (by simp)
      · intro hprev hmem
        exfalso
        obtain ⟨p, hp, hpid⟩ := List.mem_map.mp hmem
        have hany : (first :: rest).any (fun p => p.id == prev) = true :=
          List.any_eq_true.mpr ⟨p, hp, by simp [hpid]⟩
        have hpe : (prev == "") = true := by
          cases h : (prev == "") with
          | true => rfl
          | false => simp [h, hany] at hcond
        exact hprev (eq_of_beq hpe)
      · intro f2 r2 heq _
        cases heq
        exact hres
    · have hprevne : (prev == "") = false := by
        cases h : (prev == "") with
        | false => rfl
        | true => exact absurd (by simp [h]) hcond
      have hany : ((first :: rest).any (fun p => p.id == prev)) = true := by
        cases h : ((first :: rest).any (fun p => p.id == prev)) with
        | true => rfl
        | false => exact absurd (by simp [h]) hcond
      have hres : reconcileScanFormProjectId (first :: rest) prev = prev := by
        simp only [reconcileScanFormProjectId, hprevne, hany]
        simp
      refine ⟨?_, ?_, ?_, ?_⟩
      · have hne : prev ≠ "" := by simpa using hprevne
        simp [hres, hne]
      · intro _
        rw [hres]
        obtain ⟨p, hp, hpid⟩ := List.any_eq_true.mp hany
        exact List.mem_map.mpr ⟨p, hp, by simpa using hpid⟩
      · intro _ _
        exact hres
      · intro f2 r2 heq hdisj
        exfalso
        cases heq
        rcases hdisj with h | h
        · rw [h] at hprevne
          exact absurd hprevne (by simp)
        · obtain ⟨p, hp, hpid⟩ := List.any_eq_true.mp hany
          exact h (List.mem_map.mpr ⟨p, hp, by simpa using hpid⟩)

/-- Witness for C10: with one loaded project p1 and a stale selection, the
selection is replaced by p1's id. -/
theorem scan_form_project_reconciliation_witness :
    reconcileScanFormProjectId [{ id := "p1", name := "demo", path := "/tmp/demo" }] "gone"
      = "p1" :=
  (scan_form_project_reconciliation
      [{ id := "p1", name := "demo", path := "/tmp/demo" }] "gone" (by decide)).2.2.2
    { id := "p1", name := "demo", path := "/tmp/demo" } [] rfl (Or.inr (by decide))
